import Mathlib

/-!
Shallow embedding of busybox `util-linux/mount.c` (the mini mount applet).

Modelling conventions:
* C `long` values (the `flags` field of `mount_options` and the flag
  accumulators) are 64-bit two's complement; we represent them as `Nat`
  in `[0, 2^64)`.  A C-negative value is one with the sign bit set,
  i.e. `2^63 ≤ v`; bitwise NOT of a mask `m` is `w64not m = m ^^^ (2^64-1)`.
  All masks that actually occur are below `2^31`, so the C `int`/`long`
  conversions in the source are value-preserving and need no extra `%`.
* C strings are Lean `String`s (a structure over `List Char`); a NUL
  byte is modelled as the character `'\x00'` where the in-place
  tokenizer of `parse_mount_options` is concerned.  A nullable
  `char *` is an `Option String`.
* External collaborators (the `mount(2)` syscall, `lstat`, `set_loop`,
  `gethostbyname`, `nfsmount`, `bb_simplify_path`) are fields of an
  `Env` record; compile-time configuration (`ENABLE_FEATURE_*`) and the
  runtime `useMtab`/`fakeIt` toggles are fields of a `Config` record.
  The option table is modelled with every `USE_FEATURE_*` group present
  (the fully featured build, which is what the specification describes).
* `bb_error_msg_and_die` (abnormal process termination) is modelled by a
  `died : Option String` field carrying the diagnostic; plain
  `bb_error_msg` diagnostics are not modelled.
* Result records carry ghost trace fields (lists of attempted flag
  words / dispatched requests) so that iteration-count properties can be
  stated; they do not influence the computation.
-/

/-! ## Kernel mount flag constants (linux/fs.h values, as used by busybox) -/

def MS_RDONLY : Nat := 1
def MS_NOSUID : Nat := 2
def MS_NODEV : Nat := 4
def MS_NOEXEC : Nat := 8
def MS_SYNCHRONOUS : Nat := 16
def MS_REMOUNT : Nat := 32
def MS_MANDLOCK : Nat := 64
def MS_NOATIME : Nat := 1024
def MS_NODIRATIME : Nat := 2048
def MS_BIND : Nat := 4096
def MS_MOVE : Nat := 8192
def MS_RECURSIVE : Nat := 16384
def MS_SILENT : Nat := 32768
def MS_UNBINDABLE : Nat := 131072
def MS_PRIVATE : Nat := 262144
def MS_SLAVE : Nat := 524288
def MS_SHARED : Nat := 1048576

/-- mount.c line 29: `#define MOUNT_NOAUTO (1<<29)` (not a real kernel flag). -/
def MOUNT_NOAUTO : Nat := 2 ^ 29

/-- mount.c line 30: `#define MOUNT_SWAP (1<<30)` (not a real kernel flag). -/
def MOUNT_SWAP : Nat := 2 ^ 30

/-- errno values used by mount.c (asm-generic/errno values). -/
def EPERM : Nat := 1
def EACCES : Nat := 13
def EBUSY : Nat := 16
def EROFS : Nat := 30

/-- Bitwise NOT in 64-bit two's complement: the value of the C
expression `~m` for a `long` (e.g. the `~MS_NOSUID` table entries). -/
def w64not (m : Nat) : Nat := m ^^^ (2 ^ 64 - 1)

/-- Sign test for our encoded C `long`: `fl < 0` in the source. -/
def longNeg (fl : Nat) : Bool := 2 ^ 63 ≤ fl

/-- Positivity test for our encoded C `long`: `fl > 0` in the source. -/
def longPos (fl : Nat) : Bool := 0 < fl ∧ fl < 2 ^ 63

/-! ## The Option Table (mount.c lines 35-89, `mount_options[]`)

All `USE_FEATURE_*` groups are included (fully featured build).
`MS_FLAGS` entries set a bit, `~MS_FLAGS` entries (encoded through
`w64not`) clear that bit, `0` entries are NOPs. -/

def mount_options : List (String × Nat) := [
  ("loop", 0),
  ("defaults", 0),
  ("quiet", 0),
  ("noauto", MOUNT_NOAUTO),
  ("swap", MOUNT_SWAP),
  ("nosuid", MS_NOSUID),
  ("suid", w64not MS_NOSUID),
  ("dev", w64not MS_NODEV),
  ("nodev", MS_NODEV),
  ("exec", w64not MS_NOEXEC),
  ("noexec", MS_NOEXEC),
  ("sync", MS_SYNCHRONOUS),
  ("async", w64not MS_SYNCHRONOUS),
  ("atime", w64not MS_NOATIME),
  ("noatime", MS_NOATIME),
  ("diratime", w64not MS_NODIRATIME),
  ("nodiratime", MS_NODIRATIME),
  ("loud", w64not MS_SILENT),
  ("bind", MS_BIND),
  ("move", MS_MOVE),
  ("shared", MS_SHARED),
  ("slave", MS_SLAVE),
  ("private", MS_PRIVATE),
  ("unbindable", MS_UNBINDABLE),
  ("rshared", MS_SHARED ||| MS_RECURSIVE),
  ("rslave", MS_SLAVE ||| MS_RECURSIVE),
  ("rprivate", MS_SLAVE ||| MS_RECURSIVE),
  ("runbindable", MS_UNBINDABLE ||| MS_RECURSIVE),
  ("ro", MS_RDONLY),
  ("rw", w64not MS_RDONLY),
  ("remount", MS_REMOUNT)]

/-! ## The Option Resolver (mount.c lines 106-147, `parse_mount_options`) -/

/-- ASCII `tolower`, as used by `strcasecmp` in the C locale. -/
def asciiLower (c : Char) : Char :=
  if 'A' ≤ c ∧ c ≤ 'Z' then Char.ofNat (c.toNat + 32) else c

/-- `strcasecmp(a, b) == 0`: case-insensitive string equality. -/
def strcaseeq (a b : List Char) : Bool :=
  a.map asciiLower = b.map asciiLower

/-- Comma tokenization: the effect of the repeated
`strchr(options, ',')` splitting loop.  An empty input yields one empty
token, just as the C loop processes the empty string once. -/
def splitComma : List Char → List (List Char)
  | [] => [[]]
  | c :: cs =>
    if c = ',' then [] :: splitComma cs
    else
      match splitComma cs with
      | t :: ts => (c :: t) :: ts
      | [] => [[c]]

/-- Table lookup of one token (the inner `for` loop over
`mount_options` with `strcasecmp`, lines 118-125): flags of the first
case-insensitive match, if any. -/
def optMatch (tok : List Char) : Option Nat :=
  (mount_options.find? fun e => strcaseeq e.1.data tok).map (fun e => e.2)

/-- Application of one matched entry to the accumulator:
`if (fl < 0) flags &= fl; else flags |= fl;` (lines 120-122). -/
def applyFlag (flags fl : Nat) : Nat :=
  if longNeg fl then flags &&& fl else flags ||| fl

/-- Appending one unrecognized token to the collector string
(lines 130-136): comma-separated iff the collector is nonempty
(`i = strlen(*unrecognized)`). -/
def appendTok (acc tok : List Char) : List Char :=
  if acc.length ≠ 0 then acc ++ ',' :: tok else acc ++ tok

/-- The token-processing loop of `parse_mount_options`: left fold over
the comma-separated tokens.  `unrec = none` models a NULL
`unrecognized` argument (tokens silently dropped). -/
def parseTokens : Nat → Option (List Char) → List (List Char) → Nat × Option (List Char)
  | flags, unrec, [] => (flags, unrec)
  | flags, unrec, tok :: rest =>
    match optMatch tok with
    | some fl => parseTokens (applyFlag flags fl) unrec rest
    | none =>
      match unrec with
      | some acc => parseTokens flags (some (appendTok acc tok)) rest
      | none => parseTokens flags none rest

/-- mount.c lines 106-147: parse an option string into kernel flags,
starting from the silent bit, optionally collecting unrecognized
tokens.  A NULL collector pointer is `none`; a collector holding a NULL
string is identified with one holding `""` (the first `xrealloc` append
and the `strlen` comma test make the two indistinguishable). -/
def parse_mount_options (options : String) (unrecognized : Option String) :
    Nat × Option String :=
  let r := parseTokens MS_SILENT (unrecognized.map String.data) (splitComma options.data)
  (r.1, r.2.map String.mk)

/-! ## In-place tokenization model (mount.c lines 111-144)

The C loop temporarily overwrites each `','` with a NUL byte
(`*comma = 0`), reads the token as a C string (up to the first NUL),
and writes the comma back (`*comma = ','`) before advancing.  To settle
the frame property we model the buffer explicitly. -/

/-- `strchr(buf, ',')`: splits at the first comma, returning the
comma-free prefix and the suffix after the comma. -/
def strchrSplit : List Char → Option (List Char × List Char)
  | [] => none
  | c :: cs =>
    if c = ',' then some ([], cs)
    else (strchrSplit cs).map fun p => (c :: p.1, p.2)

/-- Reading a C string out of a buffer: everything up to the first NUL. -/
def cstrRead (buf : List Char) : List Char := buf.takeWhile (fun c => c ≠ '\x00')

/-- One option-table step on (flags, collector) for a token, shared by
both tokenizer models: lines 117-137 of mount.c. -/
def tokStep (flags : Nat) (unrec : Option (List Char)) (tok : List Char) :
    Nat × Option (List Char) :=
  match optMatch tok with
  | some fl => (applyFlag flags fl, unrec)
  | none =>
    match unrec with
    | some acc => (flags, some (appendTok acc tok))
    | none => (flags, none)

/-- The buffer-level `parse_mount_options` loop.  In the comma case the
buffer becomes `pre ++ '\x00' :: post` while the token is read, and is
restored to `pre ++ ',' :: rest` before advancing; the returned third
component is the buffer as left behind by the call.  `fuel` bounds the
number of iterations (each iteration consumes at least one character of
the buffer, so `buf.length + 1` is always enough). -/
def parseBufAux : Nat → Nat → Option (List Char) → List Char →
    Nat × Option (List Char) × List Char
  | 0, flags, unrec, buf => (flags, unrec, buf)
  | fuel + 1, flags, unrec, buf =>
    match strchrSplit buf with
    | none =>
      let s := tokStep flags unrec (cstrRead buf)
      (s.1, s.2, buf)
    | some (pre, post) =>
      let s := tokStep flags unrec (cstrRead (pre ++ '\x00' :: post))
      let r := parseBufAux fuel s.1 s.2 post
      (r.1, r.2.1, pre ++ ',' :: r.2.2)

/-- Buffer-level run of the whole loop over an option buffer. -/
def parseBuf (flags : Nat) (unrec : Option (List Char)) (buf : List Char) :
    Nat × Option (List Char) × List Char :=
  parseBufAux (buf.length + 1) flags unrec buf

/-! ## Filesystem Candidate Source (mount.c lines 151-177) -/

/-- C `isspace` in the C locale. -/
def asciiIsSpace (c : Char) : Bool :=
  c = ' ' ∨ c = '\t' ∨ c = '\n' ∨ c.toNat = 11 ∨ c.toNat = 12 ∨ c = '\r'

/-- Line test `!strncmp(buf,"nodev",5) && isspace(buf[5])` (line 165):
the first five characters are `nodev` and the sixth exists and is
whitespace (for a five-character line, `buf[5]` is the NUL terminator,
which is not whitespace). -/
def nodevLine (line : String) : Bool :=
  match line.data with
  | 'n' :: 'o' :: 'd' :: 'e' :: 'v' :: c :: _ => asciiIsSpace c
  | _ => false

/-- Per-line processing of the filesystem list reader (lines 164-172):
skip `nodev`-tagged lines, trim leading whitespace, skip comment
(`#`/`*`) and blank lines, keep the trimmed text. -/
def fsLineKeep (line : String) : Option String :=
  if nodevLine line then none
  else
    let fs := line.data.dropWhile (fun c => asciiIsSpace c)
    match fs with
    | [] => none
    | c :: _ => if c = '#' ∨ c = '*' then none else some (String.mk fs)

/-- mount.c lines 151-177, `get_block_backed_filesystems`: the two
sources are `/etc/filesystems` then `/proc/filesystems`, each given as
`none` when `fopen` fails, or the list of chomped lines.  Kept lines
are appended in file order (`llist_add_to_end`), without
deduplication. -/
def get_block_backed_filesystems (etcFile procFile : Option (List String)) :
    List String :=
  ((etcFile.getD []).filterMap fsLineKeep) ++ ((procFile.getD []).filterMap fsLineKeep)

/-! ## Data model and collaborators -/

/-- mount.c lines 92-102, `append_mount_options`: comma-join unless the
old string is NULL or empty. -/
def append_mount_options (oldopts newopts : String) : String :=
  if oldopts ≠ "" then oldopts ++ "," ++ newopts else newopts

/-- A `struct mntent` as used by mount.c: `mnt_type` is nullable
(NULL = no filesystem type given). -/
structure MntEnt where
  mnt_fsname : String
  mnt_dir : String
  mnt_type : Option String
  mnt_opts : String
deriving DecidableEq, Repr

/-- Compile-time features and runtime toggles.  `useMtab`/`fakeIt` are
only effective when `mtabSupport` (ENABLE_FEATURE_MTAB_SUPPORT) holds,
mirroring lines 190-196.  `cleanUp` is ENABLE_FEATURE_CLEAN_UP. -/
structure Config where
  mtabSupport : Bool
  useMtab : Bool
  fakeIt : Bool
  cleanUp : Bool
deriving DecidableEq, Repr

/-- What `lstat` can report about the source path, as far as mount.c
looks at it: regular file, directory, or anything else. -/
inductive FileKind
  | reg
  | dir
  | other
deriving DecidableEq, Repr

/-- External collaborators of the core (syscalls and library services),
fixed for one run.  `sys` is the `mount(2)` syscall as a function of
the request, the flag word and the data string, returning
`(rc, errno)`; `errno` is meaningful only when `rc ≠ 0`.  `lstat`
returns the file kind or an errno.  `set_loop` returns
`(status, loop device name, errno)`.  `gethostbyname` returns the
first four (signed char) address bytes.  `nfsmount` returns
`(rc, errno)`. -/
structure Env where
  sys : MntEnt → Nat → String → Int × Nat
  lstat : String → Except Nat FileKind
  simplify : String → String
  set_loop : String → Int × String × Nat
  gethostbyname : String → Option (Int × Int × Int × Int)
  nfsmount : MntEnt → Nat → String → Int × Nat

/-! ## Mount Executor (mount.c lines 199-259, `mount_it_now`) -/

/-- Message of `bb_msg_perm_denied_are_you_root` (libbb messages.c). -/
def bb_msg_perm_denied_are_you_root : String := "permission denied. (are you root?)"

/-- Outcome of the retry loop of lines 207-215: final `rc`, the errno
left behind (set by the last failing attempt, otherwise the incoming
ambient value), the final flag word, and the ghost list of flag words
passed to `mount(2)`, in order. -/
structure LoopResult where
  rc : Int
  errno : Nat
  flags : Nat
  attempts : List Nat
deriving DecidableEq, Repr

/-- The `for(;;)` retry loop of lines 207-215, with an iteration fuel.
Each iteration mounts with the current flags and breaks unless the
attempt failed with EACCES/EROFS while MS_RDONLY was unset, in which
case it retries with MS_RDONLY set.  Fuel 2 always suffices
(`mountLoopAux_fuel`), because the retried flag word has MS_RDONLY
set. -/
def mountLoopAux (sys : Nat → Int × Nat) : Nat → Nat → Nat → LoopResult
  | 0, f, e0 => ⟨0, e0, f, []⟩
  | fuel + 1, f, e0 =>
    let r := sys f
    let e1 := if r.1 ≠ 0 then r.2 else e0
    if r.1 = 0 ∨ f &&& MS_RDONLY ≠ 0 ∨ (r.2 ≠ EACCES ∧ r.2 ≠ EROFS) then
      ⟨r.1, e1, f, [f]⟩
    else
      let rest := mountLoopAux sys fuel (f ||| MS_RDONLY) e1
      ⟨rest.rc, rest.errno, rest.flags, f :: rest.attempts⟩

/-- The retry loop with its (sufficient) fuel of 2. -/
def mountLoop (sys : Nat → Int × Nat) (f e0 : Nat) : LoopResult :=
  mountLoopAux sys 2 f e0

/-- Result of `mount_it_now`: the raw `rc`, the ambient errno on
return, the (possibly mutated) mntent, the death diagnostic of
`bb_error_msg_and_die` if it fired, and the ghost list of records
appended to the legacy mount table. -/
structure MINResult where
  rc : Int
  errnoOut : Nat
  mp : MntEnt
  died : Option String
  mtabWritten : List MntEnt
deriving DecidableEq, Repr

/-- The mtab options-rebuilding loop of lines 234-236: walk
`mount_options` while the entry's flags differ from MS_REMOUNT,
appending the name of every entry whose flags are (signed) positive to
the record's option string. -/
def mtabOpts (opts : String) : String :=
  (mount_options.takeWhile fun e => e.2 ≠ MS_REMOUNT).foldl
    (fun o e => if longPos e.2 then append_mount_options o e.1 else o) opts

/-- Lines 240-241: strip one trailing `/` from the mount directory when
it is longer than one character. -/
def stripSlash (d : String) : String :=
  if 1 < d.data.length ∧ d.data.getLast? = some '/' then String.mk d.data.dropLast else d

/-- mount.c lines 199-259, `mount_it_now`.  `vfsflags` is the resolved
flag word, `filteropts` the filesystem-specific option string,
`errnoIn` the ambient errno at entry.  Note on the mtab section
(lines 225-256): the source has the actual `addmntent(mountTable, mp)`
call commented out (line 246, replaced by an `if(0)` debug message), so
the record fields are rebuilt in `mp` but nothing is ever appended to
the mount table file; `mtabWritten` is therefore always empty. -/
def mount_it_now (cfg : Config) (env : Env) (mp : MntEnt) (vfsflags : Nat)
    (filteropts : String) (errnoIn : Nat) : MINResult :=
  if cfg.mtabSupport ∧ cfg.fakeIt then ⟨0, errnoIn, mp, none, []⟩
  else
    let res := mountLoop (fun fl => env.sys mp fl filteropts) vfsflags errnoIn
    if res.rc ≠ 0 ∧ res.errno = EPERM then
      ⟨res.rc, res.errno, mp, some bb_msg_perm_denied_are_you_root, []⟩
    else if cfg.mtabSupport ∧ cfg.useMtab ∧ res.rc = 0 then
      let opts1 := mtabOpts mp.mnt_opts
      let dir1 := stripSlash mp.mnt_dir
      let type1 :=
        if mp.mnt_type = none ∨ mp.mnt_type = some "" then some "--bind" else mp.mnt_type
      let type2 := if cfg.cleanUp ∧ type1 ≠ some "--bind" then none else type1
      ⟨res.rc, res.errno, ⟨mp.mnt_fsname, dir1, type2, opts1⟩, none, []⟩
    else ⟨res.rc, res.errno, mp, none, []⟩

/-! ## Single-Mount Orchestrator (mount.c lines 264-406, `singlemount`) -/

/-- Result of `singlemount`: `rc` after the `report_error`
busy-normalization, `rcPre` the raw value before it (ghost), the
ambient errno, the (possibly mutated) request, the ghost list of
`mount_it_now` dispatches `(request, flags, filteropts)`, whether the
type-autodetection loop was entered (ghost), and the death diagnostic
if one propagated. -/
structure SMResult where
  rc : Int
  rcPre : Int
  errnoOut : Nat
  mp : MntEnt
  calls : List (MntEnt × Nat × String)
  autodetect : Bool
  died : Option String
deriving DecidableEq, Repr

/-- The `report_error` epilogue (lines 397-405): tolerate EBUSY as
success when the caller said so; the `rc < 0` diagnostic message has no
modelled effect. -/
def smFinish (ignore_busy : Bool) (rcRaw : Int) (e : Nat) (mp : MntEnt)
    (calls : List (MntEnt × Nat × String)) (auto : Bool) : SMResult :=
  ⟨if rcRaw ≠ 0 ∧ e = EBUSY ∧ ignore_busy = true then 0 else rcRaw,
   rcRaw, e, mp, calls, auto, none⟩

/-- CIFS-branch guard (lines 279-281): type unset or `cifs`, and the
source starts with two identical separator characters. -/
def cifsCond (mp : MntEnt) : Bool :=
  decide (mp.mnt_type = none ∨ mp.mnt_type = some "cifs") &&
  (match mp.mnt_fsname.data with
   | c0 :: c1 :: _ => decide (c0 = c1 ∧ (c0 = '/' ∨ c0 = '\\'))
   | _ => false)

/-- NFS-branch guard (lines 323-325): type unset or `nfs`, and the
source contains a `:`. -/
def nfsCond (mp : MntEnt) : Bool :=
  decide (mp.mnt_type = none ∨ mp.mnt_type = some "nfs") &&
  mp.mnt_fsname.data.contains ':'

/-- Index of the last occurrence of a character (`strrchr`). -/
def lastIdxOf (c : Char) (l : List Char) : Option Nat :=
  (l.reverse.findIdx? fun x => x = c).map fun i => l.length - 1 - i

/-- The CIFS branch body (lines 282-319): normalize separators to
backslash, cut out the host part (between the leading `\\` and the
last backslash), resolve it, splice an `ip=...` option into the
unrecognized-options string, rewrite the source as
`\\<address><share>`, force MS_MANDLOCK and type `cifs`, and mount.
Failures of the UNC parse or of name resolution leave `rc = 1` and go
to `report_error`. -/
def singlemountCifs (cfg : Config) (env : Env) (mp1 : MntEnt) (vfsflags : Nat)
    (filteropts : String) (ignore_busy : Bool) (e : Nat) : SMResult :=
  let s : List Char := mp1.mnt_fsname.data.map fun c => if c = '/' then '\\' else c
  let mpS := {mp1 with mnt_fsname := String.mk s}
  match lastIdxOf '\\' s with
  | none => smFinish ignore_busy 1 e mpS [] false
  | some p =>
    if p = 1 then smFinish ignore_busy 1 e mpS [] false
    else
      let host := String.mk ((s.drop 2).take (p - 2))
      match env.gethostbyname host with
      | none => smFinish ignore_busy 1 e mpS [] false
      | some addr =>
        let ipStr := "ip=" ++ toString addr.1 ++ "." ++ toString addr.2.1 ++ "."
          ++ toString addr.2.2.1 ++ "." ++ toString addr.2.2.2
        let filteropts2 := ((parse_mount_options ipStr (some filteropts)).2).getD ""
        let share :=
          match (s.drop 2).findIdx? (fun c => c = '\\') with
          | some j => (s.drop 2).drop j
          | none => []
        let fsname2 := "\\\\" ++ (ipStr.drop 3) ++ String.mk share
        let mp2 := {mpS with mnt_fsname := fsname2, mnt_type := some "cifs"}
        let vf2 := vfsflags ||| MS_MANDLOCK
        let r := mount_it_now cfg env mp2 vf2 filteropts2 e
        match r.died with
        | some m => ⟨r.rc, r.rc, r.errnoOut, r.mp, [(mp2, vf2, filteropts2)], false, some m⟩
        | none => smFinish ignore_busy r.rc r.errnoOut r.mp [(mp2, vf2, filteropts2)] false

/-- Intermediate result of the autodetection loop. -/
structure SMRaw where
  rc : Int
  errno : Nat
  mp : MntEnt
  calls : List (MntEnt × Nat × String)
  died : Option String
deriving DecidableEq, Repr

/-- The type-autodetection loop (lines 378-384): try each candidate
type in order until one mounts; on failure reset the type and continue.
Entered with `rc = -1`, which is the result when the list is
exhausted (or empty). -/
def smAutoLoop (cfg : Config) (env : Env) (mpX : MntEnt) (vfs : Nat) (fo : String) :
    Nat → List String → SMRaw
  | e, [] => ⟨-1, e, mpX, [], none⟩
  | e, fs :: rest =>
    let mpT := {mpX with mnt_type := some fs}
    let r := mount_it_now cfg env mpT vfs fo e
    match r.died with
    | some m => ⟨r.rc, r.errnoOut, r.mp, [(mpT, vfs, fo)], some m⟩
    | none =>
      if r.rc = 0 then ⟨0, r.errnoOut, r.mp, [(mpT, vfs, fo)], none⟩
      else
        let a := smAutoLoop cfg env mpX vfs fo r.errnoOut rest
        ⟨a.rc, a.errno, a.mp, (mpT, vfs, fo) :: a.calls, a.died⟩

/-- Lines 358-385: if the type is known or the action is
remount/bind/move, dispatch one direct `mount_it_now`; otherwise run
the autodetection loop over the candidate list. -/
def smDispatch (cfg : Config) (env : Env) (fslist : List String) (mp : MntEnt)
    (vfs : Nat) (fo : String) (ignore_busy : Bool) (e : Nat) : SMResult :=
  if mp.mnt_type ≠ none ∨ vfs &&& (MS_REMOUNT ||| MS_BIND ||| MS_MOVE) ≠ 0 then
    let r := mount_it_now cfg env mp vfs fo e
    match r.died with
    | some m => ⟨r.rc, r.rc, r.errnoOut, r.mp, [(mp, vfs, fo)], false, some m⟩
    | none => smFinish ignore_busy r.rc r.errnoOut r.mp [(mp, vfs, fo)] false
  else
    let a := smAutoLoop cfg env mp vfs fo e fslist
    match a.died with
    | some m => ⟨a.rc, a.rc, a.errno, a.mp, a.calls, true, some m⟩
    | none => smFinish ignore_busy a.rc a.errno a.mp a.calls true

/-- mount.c lines 264-406, `singlemount`.  `fslist` is the (lazily
built) block-backed filesystem candidate list, `errnoIn` the ambient
errno.  The loop-device teardown of lines 389-395 is an external side
effect with no modelled state.  In the regular-file branch a `set_loop`
status other than 0/1 makes the function return `errno` directly
(line 349), bypassing `report_error`. -/
def singlemount (cfg : Config) (env : Env) (fslist : List String) (mp0 : MntEnt)
    (ignore_busy : Bool) (errnoIn : Nat) : SMResult :=
  let pr := parse_mount_options mp0.mnt_opts (some "")
  let vfsflags := pr.1
  let filteropts := pr.2.getD ""
  let mp1 := if mp0.mnt_type = some "auto" then {mp0 with mnt_type := none} else mp0
  if cifsCond mp1 then singlemountCifs cfg env mp1 vfsflags filteropts ignore_busy errnoIn
  else if nfsCond mp1 then
    let r := env.nfsmount mp1 vfsflags filteropts
    smFinish ignore_busy r.1 r.2 mp1 [] false
  else
    match env.lstat mp1.mnt_fsname with
    | .error e1 => smDispatch cfg env fslist mp1 vfsflags filteropts ignore_busy e1
    | .ok kind =>
      if vfsflags &&& (MS_REMOUNT ||| MS_BIND ||| MS_MOVE) = 0 then
        match kind with
        | .reg =>
          let loopFile := env.simplify mp1.mnt_fsname
          let l := env.set_loop loopFile
          if l.1 = 0 ∨ l.1 = 1 then
            smDispatch cfg env fslist {mp1 with mnt_fsname := l.2.1} vfsflags
              filteropts ignore_busy errnoIn
          else
            ⟨(l.2.2 : Int), (l.2.2 : Int), l.2.2, {mp1 with mnt_fsname := l.2.1}, [], false, none⟩
        | .dir =>
          if mp1.mnt_type = none then
            smDispatch cfg env fslist mp1 (vfsflags ||| MS_BIND) filteropts ignore_busy errnoIn
          else
            smDispatch cfg env fslist mp1 vfsflags filteropts ignore_busy errnoIn
        | .other => smDispatch cfg env fslist mp1 vfsflags filteropts ignore_busy errnoIn
      else smDispatch cfg env fslist mp1 vfsflags filteropts ignore_busy errnoIn

/-! ## Table Resolution (mount.c lines 411-601, `mount_main`)

We embed the two fstab-driven modes of the scanning loop of
lines 522-590: the targeted lookup and the mount-all iteration.  The
already-tokenized records stand in for the `getmntent_r` stream. -/

/-- Skip test of the mount-all mode (lines 575-581): a requested type
filter that does not match, or parsed options carrying the noauto/swap
pseudo-flags. -/
def allSkip (fstype : Option String) (r : MntEnt) : Bool :=
  (match fstype with
   | some ft => decide (r.mnt_type ≠ some ft)
   | none => false) ||
  decide ((parse_mount_options r.mnt_opts none).1 &&& (MOUNT_NOAUTO ||| MOUNT_SWAP) ≠ 0)

/-- Result of a mount-all run: the failure count (the applet's exit
code), the final ambient errno, the ghost list of attempted records
with the `rc` each produced, and the death diagnostic if one aborted
the run. -/
structure AllResult where
  rc : Nat
  errnoOut : Nat
  attempted : List (MntEnt × Int)
  died : Option String
deriving DecidableEq, Repr

/-- Lines 573-589: mount every unskipped record with busy tolerated,
counting genuine failures; a death inside `singlemount` aborts the
whole run on the spot. -/
def mount_all (cfg : Config) (env : Env) (fslist : List String) (fstype : Option String) :
    Nat → List MntEnt → AllResult
  | e, [] => ⟨0, e, [], none⟩
  | e, r :: rest =>
    if allSkip fstype r then mount_all cfg env fslist fstype e rest
    else
      let s := singlemount cfg env fslist r true e
      match s.died with
      | some m => ⟨0, s.errnoOut, [(r, s.rc)], some m⟩
      | none =>
        let a := mount_all cfg env fslist fstype s.errnoOut rest
        ⟨a.rc + (if s.rc ≠ 0 then 1 else 0), a.errnoOut, (r, s.rc) :: a.attempted, a.died⟩

/-- Record-matching test of the targeted mode (lines 561-564): the
request string, literally or in simplified absolute form, equals the
record's source or its target. -/
def matchesReq (arg storage : String) (r : MntEnt) : Bool :=
  r.mnt_fsname == arg || r.mnt_fsname == storage ||
  r.mnt_dir == arg || r.mnt_dir == storage

/-- The last-match slot kept by the scanning loop (lines 557-569,
realized in C by flipping between the two `mtpair` slots): overwritten
by every matching record. -/
def lastMatch (arg storage : String) (records : List MntEnt) : Option MntEnt :=
  records.foldl (fun acc r => if matchesReq arg storage r then some r else acc) none

/-- Diagnostic of the targeted-mode failure
`bb_error_msg_and_die("can not find %s in %s", ...)` (lines 538-540). -/
def mount_msg_cant_find : String := "can not find entry in table"

/-- Result of a targeted table-driven mount: the dispatched record (if
any, with merged options) and the resulting code or death. -/
structure TargetResult where
  rc : Int
  dispatched : List MntEnt
  died : Option String
deriving DecidableEq, Repr

/-- Lines 534-549 + 557-569: targeted table-driven mode.  Scan keeps
the last matching record; no match aborts the invocation; otherwise
the command-line options are appended to the match's options and it is
mounted exactly once (busy not tolerated). -/
def mount_targeted (cfg : Config) (env : Env) (fslist : List String)
    (arg cmdopts : String) (errnoIn : Nat) (records : List MntEnt) : TargetResult :=
  let storage := env.simplify arg
  match lastMatch arg storage records with
  | none => ⟨0, [], some mount_msg_cant_find⟩
  | some r =>
    let rr := {r with mnt_opts := append_mount_options r.mnt_opts cmdopts}
    let s := singlemount cfg env fslist rr false errnoIn
    ⟨s.rc, [rr], s.died⟩

/-- The set of bits an Option Table entry touches: the mask itself for
a set-bit entry, the cleared bits for a clear-bit entry (used to state
the non-overlap hypothesis of the algebraic option properties). -/
def touchedMask (fl : Nat) : Nat := if longNeg fl then w64not fl else fl

/-- The set of bits an Option Table entry clears (empty for set-bit
and no-op entries). -/
def clearsMask (fl : Nat) : Nat := if longNeg fl then w64not fl else 0

/-! ## Helper lemmas -/

theorem lor_rdonly_and (f : Nat) : (f ||| MS_RDONLY) &&& MS_RDONLY = 1 := by
  show (f ||| 1) &&& 1 = 1
  rw [Nat.and_one_is_mod]
  simp [Nat.or_mod_two_eq_one]

theorem lor_bind_and_actions (f : Nat) :
    (f ||| MS_BIND) &&& (MS_REMOUNT ||| MS_BIND ||| MS_MOVE) ≠ 0 := by
  intro h
  have h2 : Nat.testBit ((f ||| MS_BIND) &&& (MS_REMOUNT ||| MS_BIND ||| MS_MOVE)) 12 = true := by
    rw [Nat.testBit_and, Nat.testBit_or]
    have e1 : Nat.testBit MS_BIND 12 = true := by decide
    have e2 : Nat.testBit (MS_REMOUNT ||| MS_BIND ||| MS_MOVE) 12 = true := by decide
    rw [e1, e2, Bool.or_true, Bool.true_and]
  rw [h] at h2
  simp at h2

/-- One-step unfolding of the retry loop. -/
theorem mountLoopAux_succ (sys : Nat → Int × Nat) (fuel f e0 : Nat) :
    mountLoopAux sys (fuel + 1) f e0 =
      (let r := sys f
       let e1 := if r.1 ≠ 0 then r.2 else e0
       if r.1 = 0 ∨ f &&& MS_RDONLY ≠ 0 ∨ (r.2 ≠ EACCES ∧ r.2 ≠ EROFS) then
         ⟨r.1, e1, f, [f]⟩
       else
         let rest := mountLoopAux sys fuel (f ||| MS_RDONLY) e1
         ⟨rest.rc, rest.errno, rest.flags, f :: rest.attempts⟩) := rfl

/-- After the read-only retry the loop always breaks: any fuel at
least 1 gives the same single attempt at `f ||| MS_RDONLY`. -/
theorem mountLoopAux_retry_breaks (sys : Nat → Int × Nat) (fuel f e1 : Nat) :
    mountLoopAux sys (fuel + 1) (f ||| MS_RDONLY) e1 =
      ⟨(sys (f ||| MS_RDONLY)).1,
       if (sys (f ||| MS_RDONLY)).1 ≠ 0 then (sys (f ||| MS_RDONLY)).2 else e1,
       f ||| MS_RDONLY, [f ||| MS_RDONLY]⟩ := by
  rw [mountLoopAux_succ]
  have hb : (f ||| MS_RDONLY) &&& MS_RDONLY ≠ 0 := by
    rw [lor_rdonly_and]; decide
  simp only [if_pos (Or.inr (Or.inl hb))]

/-- Fuel 2 is always enough for the retry loop: larger fuels give the
same result, so `mountLoop` is the loop's true semantics. -/
theorem mountLoopAux_fuel (sys : Nat → Int × Nat) (n f e0 : Nat) (h : 2 ≤ n) :
    mountLoopAux sys n f e0 = mountLoop sys f e0 := by
  obtain ⟨k, rfl⟩ : ∃ k, n = k + 1 + 1 := ⟨n - 2, by omega⟩
  show _ = mountLoopAux sys (1 + 1) f e0
  rw [mountLoopAux_succ, mountLoopAux_succ]
  rcases Nat.eq_zero_or_pos k with hk | hk
  · subst hk; rfl
  obtain ⟨m, rfl⟩ : ∃ m, k = m + 1 := ⟨k - 1, by omega⟩
  simp only
  split
  · rfl
  · rw [mountLoopAux_retry_breaks, mountLoopAux_retry_breaks]

theorem splitComma_ne_nil (l : List Char) : splitComma l ≠ [] := by
  cases l with
  | nil => simp [splitComma]
  | cons c cs =>
    simp only [splitComma]
    split
    · simp
    · cases h : splitComma cs <;> simp

theorem splitComma_append (xs ys : List Char) :
    splitComma (xs ++ ',' :: ys) = splitComma xs ++ splitComma ys := by
  induction xs with
  | nil => simp [splitComma]
  | cons c cs ih =>
    by_cases hc : c = ','
    · subst hc
      simp [splitComma, ih]
    · rw [List.cons_append]
      simp only [splitComma, if_neg hc]
      rw [ih]
      obtain ⟨t, ts, ht⟩ : ∃ t ts, splitComma cs = t :: ts := by
        cases h : splitComma cs with
        | nil => exact absurd h (splitComma_ne_nil cs)
        | cons t ts => exact ⟨t, ts, rfl⟩
      rw [ht]
      simp

theorem splitComma_no_comma (l : List Char) (h : ',' ∉ l) : splitComma l = [l] := by
  induction l with
  | nil => rfl
  | cons c cs ih =>
    simp only [List.mem_cons, not_or] at h
    simp only [splitComma, if_neg (Ne.symm h.1), ih h.2]

/-- One token step of the fold equals `tokStep`. -/
theorem parseTokens_cons (f : Nat) (u : Option (List Char)) (tok : List Char)
    (rest : List (List Char)) :
    parseTokens f u (tok :: rest) =
      parseTokens (tokStep f u tok).1 (tokStep f u tok).2 rest := by
  simp only [parseTokens, tokStep]
  cases optMatch tok with
  | some fl => rfl
  | none => cases u <;> rfl

theorem parseTokens_append (f : Nat) (u : Option (List Char)) (a b : List (List Char)) :
    parseTokens f u (a ++ b) =
      parseTokens (parseTokens f u a).1 (parseTokens f u a).2 b := by
  induction a generalizing f u with
  | nil => rfl
  | cons tok rest ih =>
    rw [List.cons_append, parseTokens_cons, parseTokens_cons, ih]

theorem strchrSplit_none (l : List Char) (h : strchrSplit l = none) : ',' ∉ l := by
  induction l with
  | nil => simp
  | cons c cs ih =>
    simp only [strchrSplit] at h
    split at h
    · exact absurd h (by simp)
    · rename_i hc
      simp only [List.mem_cons, not_or]
      refine ⟨fun he => hc he.symm, ih ?_⟩
      cases hs : strchrSplit cs
      · rfl
      · rw [hs] at h; exact absurd h (by simp)

theorem strchrSplit_some (l pre post : List Char)
    (h : strchrSplit l = some (pre, post)) : l = pre ++ ',' :: post ∧ ',' ∉ pre := by
  induction l generalizing pre post with
  | nil => exact absurd h (by simp [strchrSplit])
  | cons c cs ih =>
    simp only [strchrSplit] at h
    split at h
    · rename_i hc
      rw [Option.some.injEq, Prod.mk.injEq] at h
      obtain ⟨h1, h2⟩ := h
      subst h1
      subst h2
      subst hc
      simp
    · rename_i hc
      cases hs : strchrSplit cs with
      | none => rw [hs] at h; exact absurd h (by simp)
      | some p =>
        obtain ⟨pa, pb⟩ := p
        rw [hs] at h
        simp only [Option.map_some', Option.some.injEq, Prod.mk.injEq] at h
        obtain ⟨h1, h2⟩ := h
        subst h1
        subst h2
        obtain ⟨h1, h2⟩ := ih pa pb hs
        constructor
        · simp [h1]
        · simp only [List.mem_cons, not_or]
          exact ⟨Ne.symm hc, h2⟩

theorem cstrRead_eq_self (l : List Char) (h : '\x00' ∉ l) : cstrRead l = l := by
  unfold cstrRead
  apply List.takeWhile_eq_self_iff.mpr
  intro c hc
  simp only [ne_eq, decide_eq_true_eq]
  exact fun he => h (he ▸ hc)

theorem cstrRead_append_nul (pre rest : List Char) (h : '\x00' ∉ pre) :
    cstrRead (pre ++ '\x00' :: rest) = pre := by
  induction pre with
  | nil => simp [cstrRead, List.takeWhile]
  | cons c cs ih =>
    simp only [List.mem_cons, not_or] at h
    simp only [cstrRead] at ih ⊢
    rw [List.cons_append, List.takeWhile_cons_of_pos (by simp [Ne.symm h.1]), ih h.2]

/-- The buffer left behind by the tokenization loop is always the input
buffer: every temporary NUL write is undone. -/
theorem parseBufAux_buffer (fuel : Nat) (f : Nat) (u : Option (List Char))
    (buf : List Char) : (parseBufAux fuel f u buf).2.2 = buf := by
  induction fuel generalizing f u buf with
  | zero => rfl
  | succ n ih =>
    cases hs : strchrSplit buf with
    | none => simp only [parseBufAux, hs]
    | some p =>
      obtain ⟨pre, post⟩ := p
      simp only [parseBufAux, hs]
      rw [ih]
      exact ((strchrSplit_some buf pre post hs).1).symm

/-- With enough fuel and a NUL-free buffer, the buffer-level loop
computes exactly what the functional tokenization computes. -/
theorem parseBufAux_agrees (fuel : Nat) (f : Nat) (u : Option (List Char))
    (buf : List Char) (hnul : '\x00' ∉ buf) (hfuel : buf.length < fuel) :
    ((parseBufAux fuel f u buf).1, (parseBufAux fuel f u buf).2.1) =
      parseTokens f u (splitComma buf) := by
  induction fuel generalizing f u buf with
  | zero => omega
  | succ n ih =>
    cases hs : strchrSplit buf with
    | none =>
      have hc := strchrSplit_none buf hs
      simp only [parseBufAux, hs]
      rw [splitComma_no_comma buf hc, cstrRead_eq_self buf hnul, parseTokens_cons]
      rfl
    | some p =>
      obtain ⟨pre, post⟩ := p
      obtain ⟨hbuf, hpre⟩ := strchrSplit_some buf pre post hs
      subst hbuf
      simp only [List.mem_append, List.mem_cons, not_or] at hnul
      simp only [parseBufAux, hs]
      rw [cstrRead_append_nul pre post (fun hin => hnul.1 hin)]
      rw [splitComma_append, splitComma_no_comma pre hpre, List.singleton_append,
        parseTokens_cons]
      have hlen : post.length < n := by
        rw [List.length_append, List.length_cons] at hfuel
        omega
      exact ih _ _ post (fun hin => hnul.2.2 hin) hlen

theorem foldl_lastMatch (p : MntEnt → Bool) (l : List MntEnt) (acc : Option MntEnt) :
    l.foldl (fun a r => if p r then some r else a) acc = (l.reverse.find? p).or acc := by
  induction l generalizing acc with
  | nil => simp
  | cons r rest ih =>
    rw [List.foldl_cons, ih, List.reverse_cons, List.find?_append, Option.or_assoc]
    congr 1
    simp only [List.find?]
    cases hp : p r <;> simp [Option.or]

/-- The last-match slot of the targeted scan holds the last matching
record, i.e. the first match of the reversed table. -/
theorem lastMatch_eq (arg storage : String) (records : List MntEnt) :
    lastMatch arg storage records =
      records.reverse.find? (matchesReq arg storage) := by
  unfold lastMatch
  rw [foldl_lastMatch]
  cases records.reverse.find? (matchesReq arg storage) <;> simp [Option.or]

theorem parseTokens_matched (f : Nat) (u : Option (List Char)) (tok : List Char)
    (rest : List (List Char)) (fl : Nat) (h : optMatch tok = some fl) :
    parseTokens f u (tok :: rest) = parseTokens (applyFlag f fl) u rest := by
  simp only [parseTokens, h]

theorem map_data_mk (u : Option String) :
    (u.map String.data).map String.mk = u := by
  cases u with
  | none => rfl
  | some s => cases s; rfl

/-! ## Claim theorems -/

/-- C1: `parse_mount_options` splits its input on commas and processes
tokens strictly left to right starting from an accumulator equal to
MS_SILENT; a token matching an Option Table entry with a non-negative
mask ORs the mask in, a match with a negative mask ANDs the accumulator
with it, and an unmatched token leaves the flags unchanged and is
appended (comma-separated, in order) to the collector when one was
supplied and silently dropped otherwise; resolving `"ro,rw"` returns
the seed with the read-only bit cleared. -/
theorem C1_option_resolver :
    (∀ (xs ys : List Char) (f : Nat) (u : Option (List Char)),
      parseTokens f u (splitComma (xs ++ ',' :: ys)) =
        parseTokens (parseTokens f u (splitComma xs)).1
          (parseTokens f u (splitComma xs)).2 (splitComma ys)) ∧
    (∀ (tok : List Char) (f : Nat) (u : Option (List Char)) (fl : Nat),
      optMatch tok = some fl → longNeg fl = false →
        parseTokens f u [tok] = (f ||| fl, u)) ∧
    (∀ (tok : List Char) (f : Nat) (u : Option (List Char)) (fl : Nat),
      optMatch tok = some fl → longNeg fl = true →
        parseTokens f u [tok] = (f &&& fl, u)) ∧
    (∀ (tok : List Char) (f : Nat) (acc : List Char),
      optMatch tok = none →
        parseTokens f (some acc) [tok] = (f, some (appendTok acc tok)) ∧
        parseTokens f none [tok] = (f, none)) ∧
    (∀ u : Option String,
      parse_mount_options "ro,rw" u = (MS_SILENT &&& w64not MS_RDONLY, u)) := by
  refine ⟨?_, ?_, ?_, ?_, ?_⟩
  · intro xs ys f u
    rw [splitComma_append, parseTokens_append]
  · intro tok f u fl h hneg
    rw [parseTokens_matched f u tok [] fl h]
    simp only [parseTokens, applyFlag, hneg, Bool.false_eq_true, if_false]
  · intro tok f u fl h hneg
    rw [parseTokens_matched f u tok [] fl h]
    simp only [parseTokens, applyFlag, hneg, if_true]
  · intro tok f acc h
    constructor <;> simp only [parseTokens, h]
  · intro u
    show ((parseTokens MS_SILENT (u.map String.data) (splitComma "ro,rw".data)).1,
        (parseTokens MS_SILENT (u.map String.data) (splitComma "ro,rw".data)).2.map
          String.mk) = (MS_SILENT &&& w64not MS_RDONLY, u)
    rw [show splitComma "ro,rw".data = ["ro".data, "rw".data] from by decide]
    rw [parseTokens_matched MS_SILENT (u.map String.data) "ro".data _ MS_RDONLY
      (by decide)]
    rw [parseTokens_matched _ (u.map String.data) "rw".data _ (w64not MS_RDONLY)
      (by decide)]
    show (applyFlag (applyFlag MS_SILENT MS_RDONLY) (w64not MS_RDONLY),
        (u.map String.data).map String.mk) = _
    rw [map_data_mk]
    rw [show applyFlag (applyFlag MS_SILENT MS_RDONLY) (w64not MS_RDONLY) =
      MS_SILENT &&& w64not MS_RDONLY from by decide]

theorem C1_option_resolver_witness :
    (parseTokens MS_SILENT none (splitComma ("ro".data ++ ',' :: "rw".data)) =
      parseTokens (parseTokens MS_SILENT none (splitComma "ro".data)).1
        (parseTokens MS_SILENT none (splitComma "ro".data)).2 (splitComma "rw".data)) ∧
    parseTokens 0 none ["ro".data] = (0 ||| MS_RDONLY, none) ∧
    parseTokens 3 (some []) ["rw".data] = (3 &&& w64not MS_RDONLY, some []) ∧
    (parseTokens 7 (some ['a']) ["bogus".data] = (7, some (appendTok ['a'] "bogus".data)) ∧
      parseTokens 7 none ["bogus".data] = (7, none)) ∧
    parse_mount_options "ro,rw" (some "x") = (MS_SILENT &&& w64not MS_RDONLY, some "x") := by
  obtain ⟨h1, h2, h3, h4, h5⟩ := C1_option_resolver
  exact ⟨h1 "ro".data "rw".data MS_SILENT none,
    h2 "ro".data 0 none MS_RDONLY (by decide) (by decide),
    h3 "rw".data 3 (some []) (w64not MS_RDONLY) (by decide) (by decide),
    h4 "bogus".data 7 ['a'] (by decide),
    h5 (some "x")⟩

/-- C10: the tokenizer restores every comma it overwrites, so the
buffer after a `parse_mount_options` run equals the buffer before it,
and (for NUL-free buffers) the computed flags and collector are exactly
those of the functional tokenization — the collector is the only
caller-visible output. -/
theorem C10_input_unchanged :
    (∀ (f : Nat) (u : Option (List Char)) (buf : List Char),
      (parseBuf f u buf).2.2 = buf) ∧
    (∀ (f : Nat) (u : Option (List Char)) (buf : List Char), '\x00' ∉ buf →
      ((parseBuf f u buf).1, (parseBuf f u buf).2.1) =
        parseTokens f u (splitComma buf)) := by
  constructor
  · intro f u buf
    exact parseBufAux_buffer _ f u buf
  · intro f u buf h
    exact parseBufAux_agrees _ f u buf h (Nat.lt_succ_self _)

theorem C10_input_unchanged_witness :
    (parseBuf MS_SILENT (some []) "ro,bogus".data).2.2 = "ro,bogus".data ∧
    ('\x00' ∉ "ro,bogus".data ∧
      ((parseBuf MS_SILENT (some []) "ro,bogus".data).1,
        (parseBuf MS_SILENT (some []) "ro,bogus".data).2.1) =
        parseTokens MS_SILENT (some []) (splitComma "ro,bogus".data)) := by
  obtain ⟨h1, h2⟩ := C10_input_unchanged
  exact ⟨h1 _ _ _, by decide, h2 _ _ _ (by decide)⟩

/-- C7: the filesystem-list reader excludes `nodev`-plus-whitespace
lines, comment lines (first non-whitespace `#` or `*`) and blank
lines, keeps the leading-whitespace-trimmed text of every other line
in file order without deduplicating across the two sources, and the
file `"nodev proc\n# comment\next4\n\n"` yields exactly `["ext4"]`. -/
theorem C7_fs_list_filter :
    (∀ (l : String) (c : Char) (rest : List Char),
      l.data = "nodev".data ++ c :: rest → asciiIsSpace c = true →
        fsLineKeep l = none) ∧
    (∀ l : String, l.data.dropWhile (fun c => asciiIsSpace c) = [] →
        fsLineKeep l = none) ∧
    (∀ (l : String) (c : Char) (rest : List Char),
      l.data.dropWhile (fun c => asciiIsSpace c) = c :: rest → (c = '#' ∨ c = '*') →
        fsLineKeep l = none) ∧
    (∀ (l : String) (c : Char) (rest : List Char),
      nodevLine l = false →
      l.data.dropWhile (fun c => asciiIsSpace c) = c :: rest → ¬(c = '#' ∨ c = '*') →
        fsLineKeep l = some (String.mk (c :: rest))) ∧
    get_block_backed_filesystems (some ["nodev proc", "# comment", "ext4", ""]) none
      = ["ext4"] ∧
    get_block_backed_filesystems (some ["ext4"]) (some ["ext4"]) = ["ext4", "ext4"] := by
  refine ⟨?_, ?_, ?_, ?_, by decide, by decide⟩
  · intro l c rest hl hsp
    have hd : l.data = 'n' :: 'o' :: 'd' :: 'e' :: 'v' :: c :: rest := by rw [hl]; rfl
    have hn : nodevLine l = true := by
      simp only [nodevLine, hd]
      exact hsp
    simp [fsLineKeep, hn]
  · intro l h
    by_cases hn : nodevLine l
    · simp [fsLineKeep, hn]
    · simp [fsLineKeep, hn, h]
  · intro l c rest h hc
    by_cases hn : nodevLine l
    · simp [fsLineKeep, hn]
    · simp [fsLineKeep, hn, h, hc]
  · intro l c rest hn h hc
    simp [fsLineKeep, hn, h, hc]

theorem C7_fs_list_filter_witness :
    fsLineKeep "nodev proc" = none ∧
    fsLineKeep "   " = none ∧
    fsLineKeep "# comment" = none ∧
    fsLineKeep " ext4" = some (String.mk ('e' :: ['x', 't', '4'])) := by
  obtain ⟨h1, h2, h3, h4, _, _⟩ := C7_fs_list_filter
  exact ⟨h1 "nodev proc" ' ' "proc".data (by decide) (by decide),
    h2 "   " (by decide),
    h3 "# comment" '#' " comment".data (by decide) (Or.inl rfl),
    h4 " ext4" 'e' ['x', 't', '4'] (by decide) (by decide) (by decide)⟩

/-- C9 (amended): for entries of the Option Table whose flag effects
touch disjoint bit sets, resolving `"opt1,opt2"` equals resolving
`"opt2,opt1"`; the resolution moreover equals the bitwise OR of the two
individual resolutions provided additionally that neither entry clears
a bit of the silent seed (the `loud` entry clears the seed bit itself,
which is why the OR decomposition needs the extra hypothesis). -/
theorem C9_order_independence : ∀ e1 ∈ mount_options, ∀ e2 ∈ mount_options,
    touchedMask e1.2 &&& touchedMask e2.2 = 0 →
    ((parse_mount_options (e1.1 ++ "," ++ e2.1) none).1 =
      (parse_mount_options (e2.1 ++ "," ++ e1.1) none).1 ∧
    (clearsMask e1.2 &&& MS_SILENT = 0 → clearsMask e2.2 &&& MS_SILENT = 0 →
      (parse_mount_options (e1.1 ++ "," ++ e2.1) none).1 =
        (parse_mount_options e1.1 none).1 ||| (parse_mount_options e2.1 none).1)) := by
  decide

theorem C9_order_independence_witness :
    (parse_mount_options ("nosuid" ++ "," ++ "noatime") none).1 =
      (parse_mount_options ("noatime" ++ "," ++ "nosuid") none).1 ∧
    (parse_mount_options ("nosuid" ++ "," ++ "noatime") none).1 =
      (parse_mount_options "nosuid" none).1 ||| (parse_mount_options "noatime" none).1 := by
  have h := C9_order_independence ("nosuid", MS_NOSUID) (by decide)
    ("noatime", MS_NOATIME) (by decide) (by decide)
  exact ⟨h.1, h.2 (by decide) (by decide)⟩

/-- C9 counterexample: `loud` and `nosuid` touch disjoint bits, yet the
resolution of `"loud,nosuid"` is not the OR of the two individual
resolutions (because `loud` clears the silent seed bit, which the
individual resolution of `nosuid` retains), refuting the claim as
stated. -/
theorem C9_counterexample :
    ("loud", w64not MS_SILENT) ∈ mount_options ∧
    ("nosuid", MS_NOSUID) ∈ mount_options ∧
    touchedMask (w64not MS_SILENT) &&& touchedMask MS_NOSUID = 0 ∧
    (parse_mount_options ("loud" ++ "," ++ "nosuid") none).1 ≠
      (parse_mount_options "loud" none).1 ||| (parse_mount_options "nosuid" none).1 := by
  decide

theorem mountLoop_break (sys : Nat → Int × Nat) (f e0 : Nat)
    (h : (sys f).1 = 0 ∨ f &&& MS_RDONLY ≠ 0 ∨
      ((sys f).2 ≠ EACCES ∧ (sys f).2 ≠ EROFS)) :
    mountLoop sys f e0 =
      ⟨(sys f).1, if (sys f).1 ≠ 0 then (sys f).2 else e0, f, [f]⟩ := by
  show mountLoopAux sys (1 + 1) f e0 = _
  rw [mountLoopAux_succ]
  simp only
  rw [if_pos h]

theorem mountLoop_retry (sys : Nat → Int × Nat) (f e0 : Nat)
    (h1 : (sys f).1 ≠ 0) (h2 : f &&& MS_RDONLY = 0)
    (h3 : (sys f).2 = EACCES ∨ (sys f).2 = EROFS) :
    mountLoop sys f e0 =
      ⟨(sys (f ||| MS_RDONLY)).1,
       if (sys (f ||| MS_RDONLY)).1 ≠ 0 then (sys (f ||| MS_RDONLY)).2 else (sys f).2,
       f ||| MS_RDONLY, [f, f ||| MS_RDONLY]⟩ := by
  show mountLoopAux sys (1 + 1) f e0 = _
  rw [mountLoopAux_succ]
  simp only
  rw [if_neg (by
    intro hor
    rcases hor with hc | hc | hc
    · exact h1 hc
    · exact hc h2
    · rcases h3 with he | he
      · exact hc.1 he
      · exact hc.2 he)]
  rw [mountLoopAux_retry_breaks sys 0 f _, if_pos h1]

/-- C2: when the mount attempt fails with EACCES or EROFS while
MS_RDONLY is unset in the flags passed, the executor retries exactly
once more with MS_RDONLY set before returning; a first failure with
MS_RDONLY already set, or with any other errno, is returned with no
retry.  The final conjunct ties the loop to `mount_it_now` (outside
fake mode its result code is the loop's). -/
theorem C2_readonly_retry :
    ∀ (sys : Nat → Int × Nat) (f e0 : Nat),
    ((sys f).1 ≠ 0 → f &&& MS_RDONLY = 0 →
      ((sys f).2 = EACCES ∨ (sys f).2 = EROFS) →
      (mountLoop sys f e0).attempts = [f, f ||| MS_RDONLY] ∧
      (mountLoop sys f e0).rc = (sys (f ||| MS_RDONLY)).1 ∧
      (mountLoop sys f e0).flags = f ||| MS_RDONLY) ∧
    ((sys f).1 ≠ 0 → f &&& MS_RDONLY ≠ 0 →
      (mountLoop sys f e0).attempts = [f] ∧ (mountLoop sys f e0).rc = (sys f).1) ∧
    ((sys f).1 ≠ 0 → (sys f).2 ≠ EACCES → (sys f).2 ≠ EROFS →
      (mountLoop sys f e0).attempts = [f] ∧ (mountLoop sys f e0).rc = (sys f).1) ∧
    (∀ (cfg : Config) (env : Env) (mp : MntEnt) (fo : String),
      ¬(cfg.mtabSupport = true ∧ cfg.fakeIt = true) →
      (mount_it_now cfg env mp f fo e0).rc =
        (mountLoop (fun fl => env.sys mp fl fo) f e0).rc) := by
  intro sys f e0
  refine ⟨?_, ?_, ?_, ?_⟩
  · intro h1 h2 h3
    rw [mountLoop_retry sys f e0 h1 h2 h3]
    exact ⟨rfl, rfl, rfl⟩
  · intro h1 h2
    rw [mountLoop_break sys f e0 (Or.inr (Or.inl h2))]
    exact ⟨rfl, rfl⟩
  · intro h1 h2 h3
    rw [mountLoop_break sys f e0 (Or.inr (Or.inr ⟨h2, h3⟩))]
    exact ⟨rfl, rfl⟩
  · intro cfg env mp fo hfake
    unfold mount_it_now
    rw [if_neg hfake]
    simp only
    split
    · rfl
    · split <;> rfl

theorem C2_readonly_retry_witness :
    ((mountLoop (fun fl => if fl &&& MS_RDONLY = 0 then ((-1 : Int), EACCES) else (0, 0))
        0 5).attempts = [0, 0 ||| MS_RDONLY] ∧
      (mountLoop (fun fl => if fl &&& MS_RDONLY = 0 then ((-1 : Int), EACCES) else (0, 0))
        0 5).rc = 0 ∧ True) ∧
    (mountLoop (fun _ => ((-1 : Int), EPERM)) 1 5).attempts = [1] ∧
    (mountLoop (fun _ => ((-1 : Int), EPERM)) 0 5).attempts = [0] ∧
    (mount_it_now ⟨false, false, false, false⟩
        ⟨fun _ _ _ => (0, 0), fun _ => Except.error 2, fun s => s,
         fun _ => (0, "", 0), fun _ => none, fun _ _ _ => (0, 0)⟩
        ⟨"/dev/sda1", "/mnt", some "ext2", "defaults"⟩ 0 "" 7).rc =
      (mountLoop (fun _ => (0, 0)) 0 7).rc := by
  have h1 := (C2_readonly_retry
    (fun fl => if fl &&& MS_RDONLY = 0 then ((-1 : Int), EACCES) else (0, 0)) 0 5).1
    (by decide) (by decide) (Or.inl (by decide))
  have h2 := (C2_readonly_retry (fun _ => ((-1 : Int), EPERM)) 1 5).2.1
    (by decide) (by decide)
  have h3 := (C2_readonly_retry (fun _ => ((-1 : Int), EPERM)) 0 5).2.2.1
    (by decide) (by decide) (by decide)
  have h4 := (C2_readonly_retry (fun _ => ((0 : Int), (0 : Nat))) 0 7).2.2.2
    ⟨false, false, false, false⟩
    ⟨fun _ _ _ => (0, 0), fun _ => Except.error 2, fun s => s,
     fun _ => (0, "", 0), fun _ => none, fun _ _ _ => (0, 0)⟩
    ⟨"/dev/sda1", "/mnt", some "ext2", "defaults"⟩ "" (by simp)
  refine ⟨⟨h1.1, ?_, trivial⟩, h2.1, h3.1, h4⟩
  rw [h1.2.1]
  decide

theorem mount_all_nil (cfg : Config) (env : Env) (fslist : List String)
    (fstype : Option String) (e : Nat) :
    mount_all cfg env fslist fstype e [] = ⟨0, e, [], none⟩ := rfl

theorem mount_all_cons_skip (cfg : Config) (env : Env) (fslist : List String)
    (fstype : Option String) (e : Nat) (r : MntEnt) (rest : List MntEnt)
    (h : allSkip fstype r = true) :
    mount_all cfg env fslist fstype e (r :: rest) =
      mount_all cfg env fslist fstype e rest := by
  simp [mount_all, h]

theorem mount_all_cons_died (cfg : Config) (env : Env) (fslist : List String)
    (fstype : Option String) (e : Nat) (r : MntEnt) (rest : List MntEnt) (m : String)
    (h : allSkip fstype r = false)
    (hd : (singlemount cfg env fslist r true e).died = some m) :
    mount_all cfg env fslist fstype e (r :: rest) =
      ⟨0, (singlemount cfg env fslist r true e).errnoOut,
        [(r, (singlemount cfg env fslist r true e).rc)], some m⟩ := by
  simp [mount_all, h, hd]

theorem mount_all_cons_ok (cfg : Config) (env : Env) (fslist : List String)
    (fstype : Option String) (e : Nat) (r : MntEnt) (rest : List MntEnt)
    (h : allSkip fstype r = false)
    (hd : (singlemount cfg env fslist r true e).died = none) :
    mount_all cfg env fslist fstype e (r :: rest) =
      ⟨(mount_all cfg env fslist fstype
          (singlemount cfg env fslist r true e).errnoOut rest).rc +
        (if (singlemount cfg env fslist r true e).rc ≠ 0 then 1 else 0),
       (mount_all cfg env fslist fstype
          (singlemount cfg env fslist r true e).errnoOut rest).errnoOut,
       (r, (singlemount cfg env fslist r true e).rc) ::
        (mount_all cfg env fslist fstype
          (singlemount cfg env fslist r true e).errnoOut rest).attempted,
       (mount_all cfg env fslist fstype
          (singlemount cfg env fslist r true e).errnoOut rest).died⟩ := by
  simp [mount_all, h, hd]

/-- C3: when the final (post-retry) mount attempt fails with EPERM,
`mount_it_now` terminates the process abnormally with the are-you-root
diagnostic instead of returning a failure code, and in a mount-all run
a record whose `singlemount` dies this way ends the run: the records
after it are never attempted. -/
theorem C3_eperm_fatal :
    (∀ (cfg : Config) (env : Env) (mp : MntEnt) (f : Nat) (fo : String) (e0 : Nat),
      ¬(cfg.mtabSupport = true ∧ cfg.fakeIt = true) →
      (mountLoop (fun fl => env.sys mp fl fo) f e0).rc ≠ 0 →
      (mountLoop (fun fl => env.sys mp fl fo) f e0).errno = EPERM →
      mount_it_now cfg env mp f fo e0 =
        ⟨(mountLoop (fun fl => env.sys mp fl fo) f e0).rc, EPERM, mp,
          some bb_msg_perm_denied_are_you_root, []⟩) ∧
    (∀ (cfg : Config) (env : Env) (fslist : List String) (fstype : Option String)
      (pre : List MntEnt) (r : MntEnt) (post : List MntEnt) (m : String),
      allSkip fstype r = false →
      ∀ e : Nat,
      (mount_all cfg env fslist fstype e pre).died = none →
      (singlemount cfg env fslist r true
        (mount_all cfg env fslist fstype e pre).errnoOut).died = some m →
      (mount_all cfg env fslist fstype e (pre ++ r :: post)).died = some m ∧
      (mount_all cfg env fslist fstype e (pre ++ r :: post)).attempted =
        (mount_all cfg env fslist fstype e pre).attempted ++
          [(r, (singlemount cfg env fslist r true
            (mount_all cfg env fslist fstype e pre).errnoOut).rc)]) := by
  constructor
  · intro cfg env mp f fo e0 hfake hrc herr
    unfold mount_it_now
    rw [if_neg hfake]
    simp only
    rw [if_pos ⟨hrc, herr⟩, herr]
  · intro cfg env fslist fstype pre r post m hskip
    induction pre with
    | nil =>
      intro e h0 hdie
      rw [mount_all_nil] at h0 hdie ⊢
      simp only at hdie
      rw [List.nil_append,
        mount_all_cons_died cfg env fslist fstype e r post m hskip hdie]
      exact ⟨rfl, rfl⟩
    | cons p ps ih =>
      intro e h0 hdie
      by_cases hp : allSkip fstype p
      · rw [mount_all_cons_skip cfg env fslist fstype e p ps hp] at h0 hdie
        rw [List.cons_append, mount_all_cons_skip cfg env fslist fstype e p _ hp,
          mount_all_cons_skip cfg env fslist fstype e p ps hp]
        exact ih e h0 hdie
      · rw [Bool.not_eq_true] at hp
        cases hsd : (singlemount cfg env fslist p true e).died with
        | some m2 =>
          rw [mount_all_cons_died cfg env fslist fstype e p ps m2 hp hsd] at h0
          exact absurd h0 (by simp)
        | none =>
          rw [mount_all_cons_ok cfg env fslist fstype e p ps hp hsd] at h0 hdie
          simp only at h0 hdie
          rw [List.cons_append,
            mount_all_cons_ok cfg env fslist fstype e p (ps ++ r :: post) hp hsd,
            mount_all_cons_ok cfg env fslist fstype e p ps hp hsd]
          simp only
          obtain ⟨hd2, ha2⟩ := ih _ h0 hdie
          exact ⟨hd2, by rw [List.cons_append, ha2]⟩

theorem C3_eperm_fatal_witness :
    (mount_it_now ⟨false, false, false, false⟩
        ⟨fun _ _ _ => (-1, EPERM), fun _ => Except.error 2, fun s => s,
         fun _ => (0, "", 0), fun _ => none, fun _ _ _ => (-1, EPERM)⟩
        ⟨"/dev/sda1", "/mnt", some "ext2", "defaults"⟩ 32768 "" 0 =
      ⟨(mountLoop (fun fl => Env.sys
          ⟨fun _ _ _ => (-1, EPERM), fun _ => Except.error 2, fun s => s,
           fun _ => (0, "", 0), fun _ => none, fun _ _ _ => (-1, EPERM)⟩
          ⟨"/dev/sda1", "/mnt", some "ext2", "defaults"⟩ fl "") 32768 0).rc,
        EPERM, ⟨"/dev/sda1", "/mnt", some "ext2", "defaults"⟩,
        some bb_msg_perm_denied_are_you_root, []⟩) ∧
    ((mount_all ⟨false, false, false, false⟩
        ⟨fun _ _ _ => (-1, EPERM), fun _ => Except.error 2, fun s => s,
         fun _ => (0, "", 0), fun _ => none, fun _ _ _ => (-1, EPERM)⟩
        [] none 0
        ([] ++ ⟨"/dev/sda1", "/mnt", some "ext2", "defaults"⟩ ::
          [⟨"/dev/sdb1", "/data", some "ext2", "defaults"⟩])).died =
      some bb_msg_perm_denied_are_you_root ∧
    (mount_all ⟨false, false, false, false⟩
        ⟨fun _ _ _ => (-1, EPERM), fun _ => Except.error 2, fun s => s,
         fun _ => (0, "", 0), fun _ => none, fun _ _ _ => (-1, EPERM)⟩
        [] none 0
        ([] ++ ⟨"/dev/sda1", "/mnt", some "ext2", "defaults"⟩ ::
          [⟨"/dev/sdb1", "/data", some "ext2", "defaults"⟩])).attempted =
      (mount_all ⟨false, false, false, false⟩
        ⟨fun _ _ _ => (-1, EPERM), fun _ => Except.error 2, fun s => s,
         fun _ => (0, "", 0), fun _ => none, fun _ _ _ => (-1, EPERM)⟩
        [] none 0 []).attempted ++
        [(⟨"/dev/sda1", "/mnt", some "ext2", "defaults"⟩,
          (singlemount ⟨false, false, false, false⟩
            ⟨fun _ _ _ => (-1, EPERM), fun _ => Except.error 2, fun s => s,
             fun _ => (0, "", 0), fun _ => none, fun _ _ _ => (-1, EPERM)⟩
            [] ⟨"/dev/sda1", "/mnt", some "ext2", "defaults"⟩ true
            (mount_all ⟨false, false, false, false⟩
              ⟨fun _ _ _ => (-1, EPERM), fun _ => Except.error 2, fun s => s,
               fun _ => (0, "", 0), fun _ => none, fun _ _ _ => (-1, EPERM)⟩
              [] none 0 []).errnoOut).rc)]) := by
  constructor
  · exact C3_eperm_fatal.1 ⟨false, false, false, false⟩
      ⟨fun _ _ _ => (-1, EPERM), fun _ => Except.error 2, fun s => s,
       fun _ => (0, "", 0), fun _ => none, fun _ _ _ => (-1, EPERM)⟩
      ⟨"/dev/sda1", "/mnt", some "ext2", "defaults"⟩ 32768 "" 0
      (by simp) (by decide) (by decide)
  · exact C3_eperm_fatal.2 ⟨false, false, false, false⟩
      ⟨fun _ _ _ => (-1, EPERM), fun _ => Except.error 2, fun s => s,
       fun _ => (0, "", 0), fun _ => none, fun _ _ _ => (-1, EPERM)⟩
      [] none []
      ⟨"/dev/sda1", "/mnt", some "ext2", "defaults"⟩
      [⟨"/dev/sdb1", "/data", some "ext2", "defaults"⟩]
      bb_msg_perm_denied_are_you_root (by decide) 0 (by decide) (by decide)

/-- C4 (refuting the append): `mount_it_now` never appends any record
to the legacy mount table — the `addmntent` call of mount.c line 246 is
commented out — even though on a successful mtab-enabled mount it does
rebuild the record fields exactly as the claim describes (options
rebuilt from the positive Option Table entries before `remount` in
declaration order, one trailing slash stripped from the directory, and
`--bind` substituted for an empty type), as the concrete run shows. -/
theorem C4_mtab_record_never_written :
    (∀ (cfg : Config) (env : Env) (mp : MntEnt) (f : Nat) (fo : String) (e0 : Nat),
      (mount_it_now cfg env mp f fo e0).mtabWritten = []) ∧
    mount_it_now ⟨true, true, false, false⟩
        ⟨fun _ _ _ => (0, 0), fun _ => Except.error 2, fun s => s,
         fun _ => (0, "", 0), fun _ => none, fun _ _ _ => (0, 0)⟩
        ⟨"/dev/sda1", "/mnt/", some "ext2", "defaults"⟩ 32768 "" 0 =
      ⟨0, 0, ⟨"/dev/sda1", "/mnt", some "ext2",
        "defaults,noauto,swap,nosuid,nodev,noexec,sync,noatime,nodiratime,bind,move,shared,slave,private,unbindable,rshared,rslave,rprivate,runbindable,ro"⟩,
        none, []⟩ ∧
    mount_it_now ⟨true, true, false, false⟩
        ⟨fun _ _ _ => (0, 0), fun _ => Except.error 2, fun s => s,
         fun _ => (0, "", 0), fun _ => none, fun _ _ _ => (0, 0)⟩
        ⟨"/dev/sda1", "/data", none, "defaults"⟩ 32768 "" 0 =
      ⟨0, 0, ⟨"/dev/sda1", "/data", some "--bind",
        "defaults,noauto,swap,nosuid,nodev,noexec,sync,noatime,nodiratime,bind,move,shared,slave,private,unbindable,rshared,rslave,rprivate,runbindable,ro"⟩,
        none, []⟩ := by
  refine ⟨?_, by decide, by decide⟩
  intro cfg env mp f fo e0
  unfold mount_it_now
  split
  · rfl
  · simp only
    split
    · rfl
    · split <;> rfl

/-- C8: a request that matches neither the CIFS nor the NFS branch,
whose resolved flags contain none of MS_REMOUNT/MS_BIND/MS_MOVE, whose
source stats as a directory, and whose type is unspecified (null or
`auto`) gets MS_BIND added to its flags, keeps its source unaltered,
and is dispatched in exactly one direct `mount_it_now` call, never
entering the type-autodetection loop. -/
theorem C8_dir_autobind :
    ∀ (cfg : Config) (env : Env) (fslist : List String) (mp : MntEnt)
      (ib : Bool) (e0 : Nat),
    (mp.mnt_type = none ∨ mp.mnt_type = some "auto") →
    cifsCond {mp with mnt_type := none} = false →
    nfsCond {mp with mnt_type := none} = false →
    env.lstat mp.mnt_fsname = Except.ok FileKind.dir →
    (parse_mount_options mp.mnt_opts (some "")).1 &&&
      (MS_REMOUNT ||| MS_BIND ||| MS_MOVE) = 0 →
    (singlemount cfg env fslist mp ib e0).calls =
      [({mp with mnt_type := none},
        (parse_mount_options mp.mnt_opts (some "")).1 ||| MS_BIND,
        ((parse_mount_options mp.mnt_opts (some "")).2).getD "")] ∧
    (singlemount cfg env fslist mp ib e0).autodetect = false ∧
    (singlemount cfg env fslist mp ib e0).calls.map (fun c => c.1.mnt_fsname)
      = [mp.mnt_fsname] := by
  intro cfg env fslist mp ib e0 htype hcifs hnfs hlstat hflags
  obtain ⟨fsn, dir, ty, opts⟩ := mp
  simp only at htype hcifs hnfs hlstat hflags ⊢
  have step1 : singlemount cfg env fslist ⟨fsn, dir, ty, opts⟩ ib e0 =
      smDispatch cfg env fslist ⟨fsn, dir, none, opts⟩
        ((parse_mount_options opts (some "")).1 ||| MS_BIND)
        ((parse_mount_options opts (some "")).2.getD "") ib e0 := by
    unfold singlemount
    simp only
    have hmp1 : (if (⟨fsn, dir, ty, opts⟩ : MntEnt).mnt_type = some "auto"
        then {(⟨fsn, dir, ty, opts⟩ : MntEnt) with mnt_type := none}
        else (⟨fsn, dir, ty, opts⟩ : MntEnt)) = (⟨fsn, dir, none, opts⟩ : MntEnt) := by
      rcases htype with h | h
      · subst h
        simp
      · subst h
        simp
    rw [hmp1, hcifs, hnfs]
    simp only [Bool.false_eq_true, if_false]
    rw [hlstat]
    simp only
    rw [if_pos hflags]
    simp
  rw [step1]
  unfold smDispatch
  rw [if_pos (Or.inr (lor_bind_and_actions (parse_mount_options opts (some "")).1))]
  simp only
  cases hd : (mount_it_now cfg env ⟨fsn, dir, none, opts⟩
      ((parse_mount_options opts (some "")).1 ||| MS_BIND)
      ((parse_mount_options opts (some "")).2.getD "") e0).died with
  | some m => simp [hd]
  | none => simp [hd, smFinish]

theorem C8_dir_autobind_witness :
    (singlemount ⟨false, false, false, false⟩
        ⟨fun _ _ _ => (0, 0), fun _ => Except.ok FileKind.dir, fun s => s,
         fun _ => (0, "", 0), fun _ => none, fun _ _ _ => (0, 0)⟩
        [] ⟨"/srv/data", "/mnt", none, "defaults"⟩ false 0).calls =
      [(⟨"/srv/data", "/mnt", none, "defaults"⟩,
        (parse_mount_options "defaults" (some "")).1 ||| MS_BIND,
        ((parse_mount_options "defaults" (some "")).2).getD "")] ∧
    (singlemount ⟨false, false, false, false⟩
        ⟨fun _ _ _ => (0, 0), fun _ => Except.ok FileKind.dir, fun s => s,
         fun _ => (0, "", 0), fun _ => none, fun _ _ _ => (0, 0)⟩
        [] ⟨"/srv/data", "/mnt", none, "defaults"⟩ false 0).autodetect = false ∧
    (singlemount ⟨false, false, false, false⟩
        ⟨fun _ _ _ => (0, 0), fun _ => Except.ok FileKind.dir, fun s => s,
         fun _ => (0, "", 0), fun _ => none, fun _ _ _ => (0, 0)⟩
        [] ⟨"/srv/data", "/mnt", none, "defaults"⟩ false 0).calls.map
        (fun c => c.1.mnt_fsname) = ["/srv/data"] :=
  C8_dir_autobind ⟨false, false, false, false⟩
    ⟨fun _ _ _ => (0, 0), fun _ => Except.ok FileKind.dir, fun s => s,
     fun _ => (0, "", 0), fun _ => none, fun _ _ _ => (0, 0)⟩
    [] ⟨"/srv/data", "/mnt", none, "defaults"⟩ false 0
    (Or.inl rfl) (by decide) (by decide) rfl (by decide)

/-- C5: the targeted table scan retains the last record whose source or
target matches the request literally or in simplified form; an empty
match set aborts the invocation; otherwise the command-line options are
appended to the last match and exactly that one record is dispatched —
so with two records mounting `/mnt` from devices A then B, the B record
is selected. -/
theorem C5_last_match_wins :
    (∀ (cfg : Config) (env : Env) (fslist : List String) (arg cmdopts : String)
      (e0 : Nat) (records : List MntEnt),
      (lastMatch arg (env.simplify arg) records =
        records.reverse.find? (matchesReq arg (env.simplify arg))) ∧
      (records.reverse.find? (matchesReq arg (env.simplify arg)) = none →
        mount_targeted cfg env fslist arg cmdopts e0 records =
          ⟨0, [], some mount_msg_cant_find⟩) ∧
      (∀ r : MntEnt,
        records.reverse.find? (matchesReq arg (env.simplify arg)) = some r →
        (mount_targeted cfg env fslist arg cmdopts e0 records).dispatched =
          [{r with mnt_opts := append_mount_options r.mnt_opts cmdopts}] ∧
        (mount_targeted cfg env fslist arg cmdopts e0 records).rc =
          (singlemount cfg env fslist
            {r with mnt_opts := append_mount_options r.mnt_opts cmdopts}
            false e0).rc)) ∧
    (mount_targeted ⟨false, false, false, false⟩
        ⟨fun _ _ _ => (0, 0), fun _ => Except.error 2, fun s => s,
         fun _ => (0, "", 0), fun _ => none, fun _ _ _ => (0, 0)⟩
        [] "/mnt" "ro" 0
        [⟨"/dev/sdA", "/mnt", some "ext2", "defaults"⟩,
         ⟨"/dev/sdB", "/mnt", some "ext2", "defaults"⟩]).dispatched =
      [⟨"/dev/sdB", "/mnt", some "ext2", "defaults,ro"⟩] := by
  refine ⟨?_, by decide⟩
  intro cfg env fslist arg cmdopts e0 records
  refine ⟨lastMatch_eq arg (env.simplify arg) records, ?_, ?_⟩
  · intro h
    simp only [mount_targeted]
    rw [lastMatch_eq arg (env.simplify arg) records, h]
  · intro r h
    simp only [mount_targeted]
    rw [lastMatch_eq arg (env.simplify arg) records, h]
    exact ⟨rfl, rfl⟩

theorem C5_last_match_wins_witness :
    (mount_targeted ⟨false, false, false, false⟩
        ⟨fun _ _ _ => (0, 0), fun _ => Except.error 2, fun s => s,
         fun _ => (0, "", 0), fun _ => none, fun _ _ _ => (0, 0)⟩
        [] "/mnt" "ro" 0 [] =
      ⟨0, [], some mount_msg_cant_find⟩) ∧
    (mount_targeted ⟨false, false, false, false⟩
        ⟨fun _ _ _ => (0, 0), fun _ => Except.error 2, fun s => s,
         fun _ => (0, "", 0), fun _ => none, fun _ _ _ => (0, 0)⟩
        [] "/mnt" "ro" 0
        [⟨"/dev/sdA", "/mnt", some "ext2", "defaults"⟩,
         ⟨"/dev/sdB", "/mnt", some "ext2", "defaults"⟩]).dispatched =
      [{(⟨"/dev/sdB", "/mnt", some "ext2", "defaults"⟩ : MntEnt) with
        mnt_opts := append_mount_options "defaults" "ro"}] := by
  constructor
  · exact ((C5_last_match_wins.1 ⟨false, false, false, false⟩
      ⟨fun _ _ _ => (0, 0), fun _ => Except.error 2, fun s => s,
       fun _ => (0, "", 0), fun _ => none, fun _ _ _ => (0, 0)⟩
      [] "/mnt" "ro" 0 []).2.1) rfl
  · exact (((C5_last_match_wins.1 ⟨false, false, false, false⟩
      ⟨fun _ _ _ => (0, 0), fun _ => Except.error 2, fun s => s,
       fun _ => (0, "", 0), fun _ => none, fun _ _ _ => (0, 0)⟩
      [] "/mnt" "ro" 0
      [⟨"/dev/sdA", "/mnt", some "ext2", "defaults"⟩,
       ⟨"/dev/sdB", "/mnt", some "ext2", "defaults"⟩]).2.2)
      ⟨"/dev/sdB", "/mnt", some "ext2", "defaults"⟩ (by decide)).1

/-- C6: in mount-all mode a record with the noauto or swap
pseudo-flags, or a type differing from a requested filter, is skipped
with no mount attempt and no effect on the failure count; every other
record is attempted (with busy tolerated, as the `report_error`
epilogue with busy-tolerance shows), and the run's result is exactly
the number of attempted records whose mount returned nonzero — one
failing entry does not stop later entries. -/
theorem C6_mount_all_counts :
    (∀ (cfg : Config) (env : Env) (fslist : List String) (fstype : Option String)
      (e0 : Nat) (records : List MntEnt),
      (mount_all cfg env fslist fstype e0 records).died = none →
      (mount_all cfg env fslist fstype e0 records).attempted.map Prod.fst =
        records.filter (fun r => !allSkip fstype r) ∧
      (mount_all cfg env fslist fstype e0 records).rc =
        (mount_all cfg env fslist fstype e0 records).attempted.countP
          (fun p => decide (p.2 ≠ 0))) ∧
    (∀ (rcRaw : Int) (e : Nat) (mp : MntEnt)
      (calls : List (MntEnt × Nat × String)) (auto : Bool),
      rcRaw ≠ 0 → e = EBUSY →
      (smFinish true rcRaw e mp calls auto).rc = 0) := by
  constructor
  · intro cfg env fslist fstype e0 records
    induction records generalizing e0 with
    | nil => intro _; exact ⟨rfl, rfl⟩
    | cons r rest ih =>
      intro hdied
      by_cases hs : allSkip fstype r
      · rw [mount_all_cons_skip cfg env fslist fstype e0 r rest hs] at hdied ⊢
        obtain ⟨h1, h2⟩ := ih e0 hdied
        refine ⟨?_, h2⟩
        rw [h1, List.filter_cons]
        simp [hs]
      · rw [Bool.not_eq_true] at hs
        cases hd : (singlemount cfg env fslist r true e0).died with
        | some m =>
          rw [mount_all_cons_died cfg env fslist fstype e0 r rest m hs hd] at hdied
          exact absurd hdied (by simp)
        | none =>
          rw [mount_all_cons_ok cfg env fslist fstype e0 r rest hs hd] at hdied ⊢
          simp only at hdied ⊢
          obtain ⟨h1, h2⟩ := ih _ hdied
          refine ⟨?_, ?_⟩
          · rw [List.map_cons, h1, List.filter_cons]
            simp [hs]
          · rw [List.countP_cons, h2]
            simp
  · intro rcRaw e mp calls auto h1 h2
    simp [smFinish, h1, h2]

theorem C6_mount_all_counts_witness :
    ((mount_all ⟨false, false, false, false⟩
        ⟨fun _ _ _ => (0, 0), fun _ => Except.error 2, fun s => s,
         fun _ => (0, "", 0), fun _ => none, fun _ _ _ => (0, 0)⟩
        [] none 0
        [⟨"/dev/sda1", "/swap", some "swap", "noauto"⟩,
         ⟨"/dev/sdb1", "/mnt", some "ext2", "defaults"⟩]).attempted.map Prod.fst =
      [⟨"/dev/sda1", "/swap", some "swap", "noauto"⟩,
       ⟨"/dev/sdb1", "/mnt", some "ext2", "defaults"⟩].filter
        (fun r => !allSkip none r) ∧
    (mount_all ⟨false, false, false, false⟩
        ⟨fun _ _ _ => (0, 0), fun _ => Except.error 2, fun s => s,
         fun _ => (0, "", 0), fun _ => none, fun _ _ _ => (0, 0)⟩
        [] none 0
        [⟨"/dev/sda1", "/swap", some "swap", "noauto"⟩,
         ⟨"/dev/sdb1", "/mnt", some "ext2", "defaults"⟩]).rc =
      (mount_all ⟨false, false, false, false⟩
        ⟨fun _ _ _ => (0, 0), fun _ => Except.error 2, fun s => s,
         fun _ => (0, "", 0), fun _ => none, fun _ _ _ => (0, 0)⟩
        [] none 0
        [⟨"/dev/sda1", "/swap", some "swap", "noauto"⟩,
         ⟨"/dev/sdb1", "/mnt", some "ext2", "defaults"⟩]).attempted.countP
        (fun p => decide (p.2 ≠ 0))) ∧
    (smFinish true (-1) EBUSY ⟨"/dev/sdb1", "/mnt", some "ext2", "defaults"⟩
      [] false).rc = 0 := by
  constructor
  · exact C6_mount_all_counts.1 ⟨false, false, false, false⟩
      ⟨fun _ _ _ => (0, 0), fun _ => Except.error 2, fun s => s,
       fun _ => (0, "", 0), fun _ => none, fun _ _ _ => (0, 0)⟩
      [] none 0
      [⟨"/dev/sda1", "/swap", some "swap", "noauto"⟩,
       ⟨"/dev/sdb1", "/mnt", some "ext2", "defaults"⟩] (by decide)
  · exact C6_mount_all_counts.2 (-1) EBUSY
      ⟨"/dev/sdb1", "/mnt", some "ext2", "defaults"⟩ [] false (by decide) rfl
